import Mathlib

/-!
Verification of the reelty-challenge video-editor core.

This file shallowly embeds the timeline geometry / snapping engine
(`apps/app/lib/timeline-utils.ts`), the Remotion frame mapper
(`apps/render/remotion/comp.tsx`), and the render-job lifecycle of the
Express server (`apps/render/server/index.ts`), and proves or refutes the
specified properties about them.

Numbers are modelled as exact rationals (the reference inputs are small
decimal fractions, far from any floating-point edge case), JS
`Math.round` as `⌊x + 1/2⌋` (which agrees with JS round-half-up on all
finite values), and a JS out-of-bounds element access followed by a field
projection (`clips[i].duration` with `i ≥ clips.length`, a TypeError at
runtime) as `Option.none`.
-/

set_option maxRecDepth 100000

set_option allowUnsafeReducibility true

attribute [local semireducible] Rat.mul Rat.inv Rat.add Rat.sub Rat.ofScientific

namespace Reelty

/-- Clip of `timeline-utils.ts` (lines 1-5): `{id, startPosition, duration}`,
positions and durations in clip units. -/
structure Clip where
  id : String
  startPosition : ℚ
  duration : ℚ
deriving DecidableEq

/-- JS `Math.round`: round half toward positive infinity. -/
def jsRound (q : ℚ) : ℤ := ⌊q + 1 / 2⌋

/-- getAllSnapPoints (`timeline-utils.ts` lines 17-40): for the empty clip
list the default timeline `[0, 1]`; otherwise `0`, every clip's start and
end, and the timeline end (last clip's `startPosition + duration`),
de-duplicated and sorted ascending.  The JS builds the raw push sequence,
removes duplicates with `[...new Set(...)]` (keeping first occurrences)
and then sorts numerically with `.sort((a, b) => a - b)`; since the final
numeric sort forgets the intermediate order, de-duplicating with
`List.dedup` followed by a sort produces the identical list (the sorted
list of the distinct values). -/
def getAllSnapPoints (clips : List Clip) : List ℚ :=
  match clips with
  | [] => [0, 1]
  | c :: cs =>
    let boundaryPoints :=
      (c :: cs).flatMap fun clip =>
        [clip.startPosition, clip.startPosition + clip.duration]
    let lastClip := (c :: cs).getLast (List.cons_ne_nil c cs)
    let timelineEnd := lastClip.startPosition + lastClip.duration
    let snapPoints := 0 :: (boundaryPoints ++ [timelineEnd])
    List.insertionSort (fun a b => a ≤ b) snapPoints.dedup

/-- One step of the JS `reduce` in `snapToClipBoundaries` / `snapTextEdges`
(`timeline-utils.ts` lines 55-57, 80-82, 85-87):
`(prev, curr) => Math.abs(curr - position) < Math.abs(prev - position) ? curr : prev`. -/
def closerStep (position prev curr : ℚ) : ℚ :=
  if |curr - position| < |prev - position| then curr else prev

/-- JS `snapPoints.reduce(...)` on the non-empty list `x :: xs`: the first
element is the initial accumulator, then the step function is folded over
the rest. -/
def reduceClosest (position x : ℚ) (xs : List ℚ) : ℚ :=
  xs.foldl (fun prev curr => closerStep position prev curr) x

/-- snapToClipBoundaries (`timeline-utils.ts` lines 45-61): find the
closest snap point by `reduce` and snap to it only when within
`snapThreshold`; with no snap points the position is returned unchanged.
The JS guard `snapPoints.length === 0` becomes the `[]` match arm (the
JS `reduce` would throw on an empty array, which the guard prevents). -/
def snapToClipBoundaries (position : ℚ) (clips : List Clip)
    (snapThreshold : ℚ) : ℚ :=
  match getAllSnapPoints clips with
  | [] => position
  | x :: xs =>
    let closest := reduceClosest position x xs
    if |closest - position| ≤ snapThreshold then closest else position

/-- Result record of `snapTextEdges`. -/
structure SnapResult where
  snappedStart : ℚ
  snappedDuration : ℚ
deriving DecidableEq

/-- snapTextEdges (`timeline-utils.ts` lines 66-105): both edges snapped
independently against the full snap-point set, then
`snappedDuration = max(0.1, snappedEnd - snappedStart)` and
`snappedStart` floored at `0`. -/
def snapTextEdges (textStart textDuration : ℚ) (clips : List Clip)
    (snapThreshold : ℚ) : SnapResult :=
  let textEnd := textStart + textDuration
  match getAllSnapPoints clips with
  | [] => ⟨textStart, textDuration⟩
  | x :: xs =>
    let closestStart := reduceClosest textStart x xs
    let closestEnd := reduceClosest textEnd x xs
    let snappedStart :=
      if |closestStart - textStart| ≤ snapThreshold then closestStart
      else textStart
    let snappedEnd :=
      if |closestEnd - textEnd| ≤ snapThreshold then closestEnd else textEnd
    let snappedDuration := max (1 / 10) (snappedEnd - snappedStart)
    ⟨max 0 snappedStart, snappedDuration⟩

/-- Clip as the Remotion composition receives it (`comp.tsx` lines 7-11):
`{id, url, duration}` with `duration` in seconds. -/
structure RenderClip where
  id : String
  url : String
  duration : ℚ
deriving DecidableEq

/-- Accumulation loop
`for (let i = lo; i < lo + n; i++) acc += Math.round(clips[i].duration * fps)`
of `comp.tsx` lines 148-156, written as recursion on the number `n` of
remaining iterations.  A read of `clips[i]` with `i ≥ clips.length` gives
JS `undefined` and the subsequent `.duration` throws, modelled as `none`;
the recursion short-circuits there exactly as the JS loop does. -/
def sumRoundedFrom (clips : List RenderClip) (fps : ℚ) :
    Nat → Nat → Option ℤ
  | _, 0 => some 0
  | lo, n + 1 =>
    match clips[lo]? with
    | none => none
    | some c =>
      match sumRoundedFrom clips fps (lo + 1) n with
      | none => none
      | some rest => some (jsRound (c.duration * fps) + rest)

/-- textStartFrame (`comp.tsx` lines 148-151): sum of
`Math.round(clips[i].duration * fps)` for `i` from `0` to
`startClipIndex` exclusive, with no clamp on `startClipIndex`. -/
def textStartFrame (clips : List RenderClip) (fps : ℚ)
    (startClipIndex : Nat) : Option ℤ :=
  sumRoundedFrom clips fps 0 startClipIndex

/-- textDurationInFrames (`comp.tsx` lines 153-156): sum of
`Math.round(clips[i].duration * fps)` for `i` from `startClipIndex` to
`Math.min(endClipIndex, clips.length)` exclusive — only the end of the
span is clamped to the clip count. -/
def textDurationInFrames (clips : List RenderClip) (fps : ℚ)
    (startClipIndex endClipIndex : Nat) : Option ℤ :=
  sumRoundedFrom clips fps startClipIndex
    (min endClipIndex clips.length - startClipIndex)

/-- Frame mapping of the text overlay (`comp.tsx` lines 141-171):
`startClipIndex = textOverlay.startPosition`,
`endClipIndex = startClipIndex + textOverlay.duration`, then the two
accumulation loops produce the `Sequence`'s `from` frame and its
`durationInFrames`. -/
def frameRangeFor (startClipUnit durationClipUnits : Nat)
    (clips : List RenderClip) (fps : ℚ) : Option (ℤ × ℤ) :=
  match textStartFrame clips fps startClipUnit with
  | none => none
  | some sf =>
    match textDurationInFrames clips fps startClipUnit
        (startClipUnit + durationClipUnits) with
    | none => none
    | some dfr => some (sf, dfr)

/-- totalDuration of the submitted clips (`server/index.ts` line 65):
`clips.reduce((s, c) => s + c.duration, 0)`. -/
def totalDurationOf (clips : List RenderClip) : ℚ :=
  clips.foldl (fun s c => s + c.duration) 0

/-- RenderProgress record of the server (`server/index.ts` lines 9-13):
`{progress, done, error?}`. -/
structure RenderProgress where
  progress : ℤ
  done : Bool
  error : Option String
deriving DecidableEq

/-- Record stored at submission time (`server/index.ts` line 58):
`{progress: 0, done: false}`. -/
def initialRecord : RenderProgress := ⟨0, false, none⟩

/-- Record written by the renderer's `onProgress` callback
(`server/index.ts` lines 99-104):
`{progress: Math.round(progress * 100), done: false}`. -/
def progressRecord (fraction : ℚ) : RenderProgress :=
  ⟨jsRound (fraction * 100), false, none⟩

/-- Record written when the renderer resolves (`server/index.ts` line 107):
`{progress: 100, done: true}`. -/
def successRecord : RenderProgress := ⟨100, true, none⟩

/-- Record written by the catch handler (`server/index.ts` lines 108-114):
`{progress: 0, done: true, error: "Render failed"}`. -/
def failedRecord : RenderProgress := ⟨0, true, some "Render failed"⟩

/-- Outcome of the whole `try` block of `app.post("/api/render")`: either
every awaited step resolved, or some step threw. -/
inductive RendererOutcome where
  | success
  | failure
deriving DecidableEq

/-- Job record after the last `onProgress` callback and before the job
settles: each callback overwrites the whole record (last-write-wins, a
`Map.set` per callback), starting from `initialRecord`. -/
def lastRecord (fractions : List ℚ) : RenderProgress :=
  fractions.foldl (fun _ f => progressRecord f) initialRecord

/-- Job record after the `try`/`catch` of `app.post("/api/render")`
settles (`server/index.ts` lines 107-114): success overwrites with
`{progress: 100, done: true}`, any caught error overwrites with
`{progress: 0, done: true, error: "Render failed"}` — in both cases
regardless of the previously recorded progress. -/
def recordAfterSettle : RendererOutcome → RenderProgress
  | RendererOutcome.success => successRecord
  | RendererOutcome.failure => failedRecord

/-- Synchronous response body of `POST /api/render`
(`server/index.ts` line 60): `{renderId}`. -/
structure SubmitResponse where
  renderId : String
deriving DecidableEq

/-- Handler of `POST /api/render` (`server/index.ts` lines 55-115),
abstracted over whether the body is malformed (then the `try` block
throws while reading it — e.g. `clips.reduce` on a missing field — which
the catch at line 108 turns into `failedRecord`), the renderer's progress
fractions and its outcome.  Returns, in order: the synchronous response,
the job record stored *before* the response is sent (line 58 precedes
line 60, before any look at the body), and the final record after the
job settles.  The response is computed before the `try` block, so it is
the fresh render id for every body, malformed or not. -/
def handleRender (renderId : String) (bodyMalformed : Bool)
    (fractions : List ℚ) (outcome : RendererOutcome) :
    SubmitResponse × RenderProgress × RenderProgress :=
  (⟨renderId⟩, initialRecord,
    recordAfterSettle
      (if bodyMalformed then RendererOutcome.failure else outcome))

/-- Three unit clips at positions 0, 1, 2 — the timeline of the concrete
scenario in the spec (three 5-second clips shown on the unit timeline). -/
def demoClips : List Clip := [⟨"c1", 0, 1⟩, ⟨"c2", 1, 1⟩, ⟨"c3", 2, 1⟩]

/-- Three 5-second clips as the renderer receives them (the concrete
scenario of the spec at fps 30). -/
def demoRenderClips : List RenderClip :=
  [⟨"c1", "url1", 5⟩, ⟨"c2", "url2", 5⟩, ⟨"c3", "url3", 5⟩]

/-- A single 5-second clip, used to exercise the frame mapper with an
overlay start index beyond the clip list. -/
def demoOneClip : List RenderClip := [⟨"c1", "url1", 5⟩]

/-- Two clips of 1.01 seconds each: per-clip rounding at fps 30 gives
`round(30.3) + round(30.3) = 60` frames while rounding the aggregate
gives `round(60.6) = 61`, separating the two rounding disciplines. -/
def aggClips : List RenderClip :=
  [⟨"a", "urlA", 101 / 100⟩, ⟨"b", "urlB", 101 / 100⟩]

end Reelty

namespace Reelty

/-! Helper lemmas about the closest-point reduce. -/

/-- One reduce step returns one of its two arguments. -/
theorem closerStep_eq_or (p a b : ℚ) :
    closerStep p a b = a ∨ closerStep p a b = b := by
  unfold closerStep
  split
  · exact Or.inr rfl
  · exact Or.inl rfl

/-- One reduce step is at least as close to `p` as its left argument. -/
theorem abs_closerStep_le_left (p a b : ℚ) :
    |closerStep p a b - p| ≤ |a - p| := by
  unfold closerStep
  split
  · exact le_of_lt (by assumption)
  · exact le_refl _

/-- One reduce step is at least as close to `p` as its right argument. -/
theorem abs_closerStep_le_right (p a b : ℚ) :
    |closerStep p a b - p| ≤ |b - p| := by
  unfold closerStep
  split
  · exact le_refl _
  · exact le_of_not_lt (by assumption)

/-- The JS reduce over a non-empty snap-point list returns a member of the
list. -/
theorem reduceClosest_mem (p : ℚ) :
    ∀ (xs : List ℚ) (x : ℚ), reduceClosest p x xs ∈ x :: xs := by
  intro xs
  induction xs with
  | nil => intro x; simp [reduceClosest]
  | cons y ys ih =>
    intro x
    have hx : reduceClosest p x (y :: ys) =
        reduceClosest p (closerStep p x y) ys := rfl
    rw [hx]
    have h := ih (closerStep p x y)
    rcases List.mem_cons.mp h with hh | hh
    · rcases closerStep_eq_or p x y with e | e
      · rw [hh, e]; exact List.mem_cons_self _ _
      · rw [hh, e]; exact List.mem_cons_of_mem _ (List.mem_cons_self _ _)
    · exact List.mem_cons_of_mem _ (List.mem_cons_of_mem _ hh)

/-- The JS reduce over a non-empty snap-point list returns a point of
minimal distance to `p` among the list. -/
theorem reduceClosest_le (p : ℚ) :
    ∀ (xs : List ℚ) (x : ℚ), ∀ q ∈ x :: xs,
      |reduceClosest p x xs - p| ≤ |q - p| := by
  intro xs
  induction xs with
  | nil =>
    intro x q hq
    have hqx : q = x := List.mem_singleton.mp hq
    subst hqx
    exact le_refl _
  | cons y ys ih =>
    intro x q hq
    have hx : reduceClosest p x (y :: ys) =
        reduceClosest p (closerStep p x y) ys := rfl
    rw [hx]
    have hstep := ih (closerStep p x y) (closerStep p x y)
      (List.mem_cons_self _ _)
    rcases List.mem_cons.mp hq with rfl | hq1
    · exact hstep.trans (abs_closerStep_le_left p q y)
    · rcases List.mem_cons.mp hq1 with rfl | hq2
      · exact hstep.trans (abs_closerStep_le_right p x q)
      · exact ih (closerStep p x y) q (List.mem_cons_of_mem _ hq2)

/-! Helper lemmas about `getAllSnapPoints`. -/

/-- The snap-point list is strictly increasing, for every clip list. -/
theorem getAllSnapPoints_sorted_lt (clips : List Clip) :
    List.Sorted (fun a b : ℚ => a < b) (getAllSnapPoints clips) := by
  match clips with
  | [] =>
    simp only [getAllSnapPoints]
    refine List.sorted_cons.mpr ⟨?_, List.sorted_singleton 1⟩
    intro b hb
    rw [List.mem_singleton.mp hb]
    norm_num
  | c :: cs =>
    have hs : List.Sorted (fun a b : ℚ => a ≤ b) (getAllSnapPoints (c :: cs)) := by
      simp only [getAllSnapPoints]
      exact List.sorted_insertionSort _ _
    have hn : (getAllSnapPoints (c :: cs)).Nodup := by
      simp only [getAllSnapPoints]
      exact ((List.perm_insertionSort _ _).nodup_iff).mpr (List.nodup_dedup _)
    exact hs.lt_of_le hn

/-- Zero is always a snap point. -/
theorem zero_mem_getAllSnapPoints (clips : List Clip) :
    (0 : ℚ) ∈ getAllSnapPoints clips := by
  match clips with
  | [] => simp [getAllSnapPoints]
  | c :: cs =>
    simp only [getAllSnapPoints]
    refine ((List.perm_insertionSort _ _).mem_iff).mpr ?_
    rw [List.mem_dedup]
    exact List.mem_cons_self _ _

/-- The timeline end (last clip's start plus duration) is always a snap
point of a non-empty clip list. -/
theorem timelineEnd_mem_getAllSnapPoints (c : Clip) (cs : List Clip) :
    ((c :: cs).getLast (List.cons_ne_nil c cs)).startPosition +
      ((c :: cs).getLast (List.cons_ne_nil c cs)).duration ∈
        getAllSnapPoints (c :: cs) := by
  simp only [getAllSnapPoints]
  refine ((List.perm_insertionSort _ _).mem_iff).mpr ?_
  rw [List.mem_dedup]
  apply List.mem_cons_of_mem
  exact List.mem_append_right _ (List.mem_singleton.mpr rfl)

/-- Every clip's start and end are snap points of a non-empty clip list. -/
theorem clip_bounds_mem_getAllSnapPoints (c : Clip) (cs : List Clip)
    (cl : Clip) (hcl : cl ∈ c :: cs) :
    cl.startPosition ∈ getAllSnapPoints (c :: cs) ∧
    cl.startPosition + cl.duration ∈ getAllSnapPoints (c :: cs) := by
  constructor <;>
  · simp only [getAllSnapPoints]
    refine ((List.perm_insertionSort _ _).mem_iff).mpr ?_
    rw [List.mem_dedup]
    apply List.mem_cons_of_mem
    apply List.mem_append_left
    rw [List.mem_flatMap]
    exact ⟨cl, hcl, by simp⟩

/-- The snap-point list is never empty (zero is always a member). -/
theorem getAllSnapPoints_ne_nil (clips : List Clip) :
    getAllSnapPoints clips ≠ [] :=
  List.ne_nil_of_mem (zero_mem_getAllSnapPoints clips)

end Reelty

namespace Reelty

/-- C4: for every non-empty clip list ordered by `startPosition` with
positive durations, `getAllSnapPoints` contains `0` and the total
timeline end (the last clip's `startPosition + duration`), is strictly
increasing and has no duplicates; for the empty clip list it returns
exactly `[0, 1]`. -/
theorem snapPoints_spec (clips : List Clip)
    (hord : clips.Pairwise (fun a b => a.startPosition ≤ b.startPosition))
    (hpos : ∀ cl ∈ clips, 0 < cl.duration) :
    getAllSnapPoints [] = [0, 1] ∧
    List.Sorted (fun a b : ℚ => a < b) (getAllSnapPoints clips) ∧
    (getAllSnapPoints clips).Nodup ∧
    ∀ h : clips ≠ [],
      (0 : ℚ) ∈ getAllSnapPoints clips ∧
      (clips.getLast h).startPosition + (clips.getLast h).duration ∈
        getAllSnapPoints clips := by
  refine ⟨rfl, getAllSnapPoints_sorted_lt clips,
    (getAllSnapPoints_sorted_lt clips).nodup, ?_⟩
  intro h
  match clips, h with
  | c :: cs, _ =>
    exact ⟨zero_mem_getAllSnapPoints _, timelineEnd_mem_getAllSnapPoints c cs⟩

/-- Witness for `snapPoints_spec` on the three-unit-clip timeline. -/
theorem snapPoints_spec_witness :
    List.Sorted (fun a b : ℚ => a < b) (getAllSnapPoints demoClips) ∧
    (0 : ℚ) ∈ getAllSnapPoints demoClips := by
  have h := snapPoints_spec demoClips (by decide) (by decide)
  exact ⟨h.2.1, (h.2.2.2 (by decide)).1⟩

/-- C5: `snapToClipBoundaries` returns the position unchanged whenever
every snap point is farther than the threshold, and otherwise returns a
member of the snap-point list of minimal distance to the position. -/
theorem snapPosition_spec (position snapThreshold : ℚ) (clips : List Clip) :
    ((∀ q ∈ getAllSnapPoints clips, snapThreshold < |q - position|) →
      snapToClipBoundaries position clips snapThreshold = position) ∧
    ((∃ q ∈ getAllSnapPoints clips, |q - position| ≤ snapThreshold) →
      snapToClipBoundaries position clips snapThreshold ∈
        getAllSnapPoints clips ∧
      ∀ q ∈ getAllSnapPoints clips,
        |snapToClipBoundaries position clips snapThreshold - position| ≤
          |q - position|) := by
  rcases hpts : getAllSnapPoints clips with _ | ⟨x, xs⟩
  · exact absurd hpts (getAllSnapPoints_ne_nil clips)
  · have hmem := reduceClosest_mem position xs x
    have hmin := reduceClosest_le position xs x
    constructor
    · intro hall
      have h1 : snapThreshold < |reduceClosest position x xs - position| :=
        hall _ hmem
      simp only [snapToClipBoundaries, hpts]
      rw [if_neg (not_le.mpr h1)]
    · rintro ⟨q, hq, hqle⟩
      have h2 : |reduceClosest position x xs - position| ≤ snapThreshold :=
        (hmin q hq).trans hqle
      simp only [snapToClipBoundaries, hpts]
      rw [if_pos h2]
      exact ⟨hmem, fun r hr => hmin r hr⟩

/-- Witness for `snapPosition_spec`: position `0.5` (all boundaries
farther than `0.3`) stays unchanged; position `0.8` snaps to a member of
the boundary set. -/
theorem snapPosition_spec_witness :
    snapToClipBoundaries (1 / 2) demoClips (3 / 10) = 1 / 2 ∧
    snapToClipBoundaries (4 / 5) demoClips (3 / 10) ∈
      getAllSnapPoints demoClips :=
  ⟨(snapPosition_spec (1 / 2) (3 / 10) demoClips).1 (by decide),
   ((snapPosition_spec (4 / 5) (3 / 10) demoClips).2
      ⟨1, by decide, by decide⟩).1⟩

end Reelty

namespace Reelty

/-- C7: on the timeline of three unit clips the snap points are
`[0, 1, 2, 3]`, and `snapTextEdges 0.8 1.4` with threshold `0.3` snaps
the start edge to `1` and the end edge `2.2` to `2` independently,
yielding exactly `{snappedStart := 1, snappedDuration := 1}`. -/
theorem concrete_snap_scenario :
    getAllSnapPoints demoClips = [0, 1, 2, 3] ∧
    snapTextEdges (4 / 5) (7 / 5) demoClips (3 / 10) = ⟨1, 1⟩ := by
  decide

/-- C8: for every start, duration, clip list and threshold the result of
`snapTextEdges` satisfies `snappedDuration ≥ 0.1` and
`snappedStart ≥ 0`. -/
theorem snapRange_bounds (textStart textDuration snapThreshold : ℚ)
    (clips : List Clip) :
    (1 : ℚ) / 10 ≤
      (snapTextEdges textStart textDuration clips snapThreshold).snappedDuration ∧
    0 ≤ (snapTextEdges textStart textDuration clips snapThreshold).snappedStart := by
  rcases hpts : getAllSnapPoints clips with _ | ⟨x, xs⟩
  · exact absurd hpts (getAllSnapPoints_ne_nil clips)
  · constructor
    · simp only [snapTextEdges, hpts]
      exact le_max_left _ _
    · simp only [snapTextEdges, hpts]
      exact le_max_left _ _

/-- C9: `snapToClipBoundaries` is idempotent — re-applying it to an
already-snapped value returns that value unchanged. -/
theorem snapPosition_idempotent (position snapThreshold : ℚ)
    (clips : List Clip) :
    snapToClipBoundaries (snapToClipBoundaries position clips snapThreshold)
        clips snapThreshold =
      snapToClipBoundaries position clips snapThreshold := by
  rcases hpts : getAllSnapPoints clips with _ | ⟨x, xs⟩
  · simp [snapToClipBoundaries, hpts]
  · by_cases hsnap : |reduceClosest position x xs - position| ≤ snapThreshold
    · have h1 : snapToClipBoundaries position clips snapThreshold =
          reduceClosest position x xs := by
        simp only [snapToClipBoundaries, hpts]
        rw [if_pos hsnap]
      have hmemc : reduceClosest position x xs ∈ x :: xs :=
        reduceClosest_mem position xs x
      have hle := reduceClosest_le (reduceClosest position x xs) xs x
        (reduceClosest position x xs) hmemc
      have h0 : |reduceClosest (reduceClosest position x xs) x xs -
          reduceClosest position x xs| ≤ 0 := by
        simpa using hle
      have heq : reduceClosest (reduceClosest position x xs) x xs =
          reduceClosest position x xs := by
        have habs := le_antisymm h0 (abs_nonneg _)
        have := abs_eq_zero.mp habs
        exact sub_eq_zero.mp this
      have ht : 0 ≤ snapThreshold :=
        le_trans (abs_nonneg (reduceClosest position x xs - position)) hsnap
      rw [h1]
      simp only [snapToClipBoundaries, hpts, heq]
      rw [if_pos (by simpa using ht)]
    · have h1 : snapToClipBoundaries position clips snapThreshold = position := by
        simp only [snapToClipBoundaries, hpts]
        rw [if_neg hsnap]
      rw [h1]
      exact h1

/-- C10: the snap-point list is never empty, and has at least two points
whenever every clip duration is positive (also for the empty clip list,
whose default is `[0, 1]`); hence the empty-snap-point fallback branches
of `snapToClipBoundaries` and `snapTextEdges` are unreachable. -/
theorem snapPoints_nonempty (clips : List Clip) :
    getAllSnapPoints clips ≠ [] ∧
    ((∀ cl ∈ clips, 0 < cl.duration) →
      2 ≤ (getAllSnapPoints clips).length) := by
  refine ⟨getAllSnapPoints_ne_nil clips, ?_⟩
  intro hpos
  match clips with
  | [] => decide
  | c :: cs =>
    have hb := clip_bounds_mem_getAllSnapPoints c cs c (List.mem_cons_self c cs)
    have hne : c.startPosition ≠ c.startPosition + c.duration := by
      have hd := hpos c (List.mem_cons_self c cs)
      intro h
      nlinarith [h]
    match hl : getAllSnapPoints (c :: cs) with
    | [] => exact absurd hl (getAllSnapPoints_ne_nil (c :: cs))
    | [a] =>
      rw [hl] at hb
      have e1 : c.startPosition = a := List.mem_singleton.mp hb.1
      have e2 : c.startPosition + c.duration = a := List.mem_singleton.mp hb.2
      exact absurd (e1.trans e2.symm) hne
    | a :: b :: t => simp

/-- Witness for `snapPoints_nonempty` on the three-unit-clip timeline. -/
theorem snapPoints_nonempty_witness :
    getAllSnapPoints demoClips ≠ [] ∧
    2 ≤ (getAllSnapPoints demoClips).length :=
  ⟨(snapPoints_nonempty demoClips).1,
   (snapPoints_nonempty demoClips).2 (by decide)⟩

end Reelty

namespace Reelty

/-- The accumulation loop, when every visited index is in range, computes
the sum of the per-clip rounded frame counts over the visited span. -/
theorem sumRoundedFrom_eq_sum (clips : List RenderClip) (fps : ℚ) :
    ∀ (n lo : Nat), lo + n ≤ clips.length →
      sumRoundedFrom clips fps lo n =
        some ((((clips.drop lo).take n).map
          (fun cl => jsRound (cl.duration * fps))).sum) := by
  intro n
  induction n with
  | zero => intro lo _; simp [sumRoundedFrom]
  | succ m ih =>
    intro lo hle
    have hlt : lo < clips.length := by omega
    have hget : clips[lo]? = some clips[lo] := List.getElem?_eq_getElem hlt
    have hrest := ih (lo + 1) (by omega)
    simp only [sumRoundedFrom, hget, hrest]
    rw [List.drop_eq_getElem_cons hlt, List.take_succ_cons, List.map_cons,
      List.sum_cons]

/-- C3 counterexample: with a single clip and `startClipUnit = 2`, the
start-frame loop reads `clips[1]`, one past the end of the list (in the
embedding the out-of-list access is the `none` result; at runtime it is a
TypeError on `clips[1].duration`).  The claimed clamp to
`[0, clips.length)` therefore does not hold for the start of the range. -/
theorem frameMapper_reads_past_list_cex :
    demoOneClip.length = 1 ∧
    textStartFrame demoOneClip 30 2 = none ∧
    frameRangeFor 2 1 demoOneClip 30 = none := by
  decide

/-- C3 amended: the frame mapper clamps only the end of the overlay span
to `clips.length`; it performs no out-of-list access (its result is
defined) whenever `startClipUnit ≤ clips.length`. -/
theorem frameMapper_safe_of_start_le (clips : List RenderClip) (fps : ℚ)
    (startClipUnit durationClipUnits : Nat)
    (h : startClipUnit ≤ clips.length) :
    (frameRangeFor startClipUnit durationClipUnits clips fps).isSome = true := by
  have h1 := sumRoundedFrom_eq_sum clips fps startClipUnit 0 (by omega)
  have h2 := sumRoundedFrom_eq_sum clips fps
    (min (startClipUnit + durationClipUnits) clips.length - startClipUnit)
    startClipUnit (by omega)
  simp [frameRangeFor, textStartFrame, textDurationInFrames, h1, h2]

/-- Witness for `frameMapper_safe_of_start_le` on the three 5-second
clips with an overlay spanning one clip from index 2. -/
theorem frameMapper_safe_of_start_le_witness :
    (frameRangeFor 2 1 demoRenderClips 30).isSome = true :=
  frameMapper_safe_of_start_le demoRenderClips 30 2 1 (by decide)

/-- C6: for `startClipUnit ≤ clips.length` the frame mapper produces the
frame count as the sum of `round(clip.duration × fps)` over each spanned
clip individually (the span's end clamped to `clips.length`), and the
start frame as the cumulative sum of `round(clip.duration × fps)` over
the preceding clips. -/
theorem frameRange_per_clip_rounding (clips : List RenderClip) (fps : ℚ)
    (startClipUnit durationClipUnits : Nat)
    (h : startClipUnit ≤ clips.length) :
    frameRangeFor startClipUnit durationClipUnits clips fps =
      some (((clips.take startClipUnit).map
          (fun cl => jsRound (cl.duration * fps))).sum,
        (((clips.drop startClipUnit).take
            (min (startClipUnit + durationClipUnits) clips.length -
              startClipUnit)).map
          (fun cl => jsRound (cl.duration * fps))).sum) := by
  have h1 := sumRoundedFrom_eq_sum clips fps startClipUnit 0 (by omega)
  have h2 := sumRoundedFrom_eq_sum clips fps
    (min (startClipUnit + durationClipUnits) clips.length - startClipUnit)
    startClipUnit (by omega)
  simp only [frameRangeFor, textStartFrame, textDurationInFrames, h1, h2,
    List.drop_zero]

/-- Witness for `frameRange_per_clip_rounding` on two 1.01-second clips
at fps 30: the per-clip rounded sum is `30 + 30 = 60` frames, while
rounding the aggregate duration would give `round(60.6) = 61` — the
mapper follows the per-clip discipline. -/
theorem frameRange_per_clip_rounding_witness :
    frameRangeFor 0 2 aggClips 30 =
      some (((aggClips.take 0).map
          (fun cl => jsRound (cl.duration * 30))).sum,
        (((aggClips.drop 0).take (min (0 + 2) aggClips.length - 0)).map
          (fun cl => jsRound (cl.duration * 30))).sum) ∧
    frameRangeFor 0 2 aggClips 30 = some (0, 60) ∧
    jsRound (totalDurationOf aggClips * 30) = 61 :=
  ⟨frameRange_per_clip_rounding aggClips 30 0 2 (by decide),
   by decide, by decide⟩

end Reelty

namespace Reelty

/-- C1 counterexample: after a renderer callback recorded progress 37, a
failure settle stores progress 0 — the catch handler writes
`{progress: 0, done: true, error: "Render failed"}` and does not leave
the progress at its last recorded value. -/
theorem failure_settle_resets_progress_cex :
    (lastRecord [37 / 100]).progress = 37 ∧
    (recordAfterSettle RendererOutcome.failure).done = true ∧
    (recordAfterSettle RendererOutcome.failure).error = some "Render failed" ∧
    (recordAfterSettle RendererOutcome.failure).progress = 0 ∧
    (recordAfterSettle RendererOutcome.failure).progress ≠
      (lastRecord [37 / 100]).progress := by
  decide

/-- C1 amended: for every job whose renderer invocation raises an error,
the settle step sets the record to the `Failed` terminal state
(`done = true`) with the generic message `"Render failed"` and resets the
progress to 0 (rather than leaving it at its last recorded value); the
submitter's synchronous response is the render id regardless of the
outcome, so the error never propagates to the submitter. -/
theorem failure_settle_spec (fractions : List ℚ) (renderId : String)
    (bodyMalformed : Bool) :
    recordAfterSettle RendererOutcome.failure = failedRecord ∧
    failedRecord.done = true ∧
    failedRecord.error = some "Render failed" ∧
    failedRecord.progress = 0 ∧
    (handleRender renderId bodyMalformed fractions
      RendererOutcome.failure).1 = ⟨renderId⟩ := by
  refine ⟨rfl, rfl, rfl, rfl, ?_⟩
  simp only [handleRender]

/-- C2 counterexample: a malformed submission is not rejected — the
handler answers with the fresh job id (`{renderId}`), a job record is
allocated before the response is sent, and the malformed body only
surfaces later as a `Failed` job record. -/
theorem malformed_submission_gets_job_cex :
    (handleRender "job-1" true [] RendererOutcome.success).1 = ⟨"job-1"⟩ ∧
    (handleRender "job-1" true [] RendererOutcome.success).2.1 =
      initialRecord ∧
    (handleRender "job-1" true [] RendererOutcome.success).2.2 =
      failedRecord := by
  decide

/-- C2 amended: the server performs no synchronous input validation —
every submission, malformed or not, is allocated a job record and
receives the job id synchronously, and a malformed body settles the job
asynchronously as `Failed` with the generic message. -/
theorem malformed_submission_spec (renderId : String) (fractions : List ℚ)
    (outcome : RendererOutcome) :
    handleRender renderId true fractions outcome =
      (⟨renderId⟩, initialRecord, failedRecord) := rfl

end Reelty
